import Mathlib

/-!
Verification development for the agentic orchestration core of the Cortex
repository.  The Python sources under src/ are shallowly embedded: machine
floats become exact rationals, Python dictionaries become association lists
preserving insertion order, raised exceptions become Option.none, and the
stateful execution engine becomes explicit state passing.  Each definition
mirrors one Python function; the theorems at the end settle the frozen
claims about that code.
-/

set_option maxRecDepth 4000

namespace Cortex

/-! ## Python values and dictionaries

Python object values that flow through ToolResult.data and the metadata
maps.  Dictionaries are association lists in insertion order; an update of
an existing key keeps its position, a new key is appended, matching CPython
dict semantics. -/
inductive PyVal where
  | none
  | bool (b : Bool)
  | num (q : ℚ)
  | str (s : String)
  | list (xs : List PyVal)
  | dict (entries : List (String × PyVal))

abbrev Dict := List (String × PyVal)

def dictGet : Dict → String → Option PyVal
  | [], _ => Option.none
  | (k1, v) :: t, k => if k1 = k then some v else dictGet t k

def dictSet : Dict → String → PyVal → Dict
  | [], k, v => [(k, v)]
  | (k1, v1) :: t, k, v =>
    if k1 = k then (k1, v) :: t else (k1, v1) :: dictSet t k v

def dictHas (d : Dict) (k : String) : Bool :=
  (dictGet d k).isSome

/-- Numeric view of a Python value: floats and ints are numbers and bools
coerce to 0 or 1, as in Python arithmetic; anything else is not a number
(an arithmetic use of it raises TypeError). -/
def pyNum : PyVal → Option ℚ
  | PyVal.num q => some q
  | PyVal.bool b => some (if b then 1 else 0)
  | _ => Option.none

/-- Truthiness of a Python value, as used in if-tests over data payloads. -/
def pyTruthy : PyVal → Bool
  | PyVal.none => false
  | PyVal.bool b => b
  | PyVal.num q => q ≠ 0
  | PyVal.str s => s ≠ ""
  | PyVal.list xs => !xs.isEmpty
  | PyVal.dict d => !d.isEmpty

/-! ## Data model: citations and tool results

EnhancedCitation and ToolResult from src/tools/__init__.py.  Scores are
rationals, page_number is the dataclass int (default 0), error is the
optional error string (Python None becomes Option.none). -/
structure Citation where
  document : String
  page_number : Nat := 0
  excerpt : String := ""
  confidence_score : ℚ := 0
  similarity_score : ℚ := 0
  cross_encoder_score : ℚ := 0
  rank_position : Nat := 0
  content : String := ""
  metadata : Dict := []

structure ToolResult where
  success : Bool
  data : PyVal := PyVal.none
  error : Option String := Option.none
  metadata : Dict := []
  citations : List Citation := []

/-- Key used by merge_results to deduplicate citations. -/
def citeKey (c : Citation) : String × Nat :=
  (c.document, c.page_number)

/-! ## Stable descending sort

Python list.sort with a key function and reverse=True is a stable sort
into descending key order.  A stable sort is determined uniquely by the
comparator, so insertion sort below computes the same list as CPython
Timsort: an element is inserted after every earlier element whose key is
greater or equal, hence ties keep their original relative order. -/
def insertDesc (f : α → ℚ) (x : α) : List α → List α
  | [] => [x]
  | y :: ys => if f x < f y then y :: insertDesc f x ys else x :: y :: ys

def sortDesc (f : α → ℚ) : List α → List α
  | [] => []
  | x :: xs => insertDesc f x (sortDesc f xs)

/-! ## Result merging (ExecutionEngine.merge_results)

Embedding of merge_results from src/agent/execution_engine.py.  A raised
Python exception is modelled as Option.none: the only raising statement is
merged_data['answers'].append(value) when merged_data['answers'] is not a
list (AttributeError). -/
/-- Merge of one (key, value) item of a successful result's data dict into
the accumulator, as in the inner loop of merge_results. -/
def mergeDataEntry (acc : Dict) (kv : String × PyVal) : Option Dict :=
  if kv.1 = "answer" then
    let acc1 := if dictHas acc "answers" then acc
      else dictSet acc "answers" (PyVal.list [])
    match dictGet acc1 "answers" with
    | some (PyVal.list xs) =>
      some (dictSet acc1 "answers" (PyVal.list (xs ++ [kv.2])))
    | _ => Option.none
  else
    match dictGet acc kv.1 with
    | some (PyVal.list xs) => some (dictSet acc kv.1 (PyVal.list (xs ++ [kv.2])))
    | some v => some (dictSet acc kv.1 (PyVal.list [v, kv.2]))
    | Option.none => some (dictSet acc kv.1 kv.2)

def mergeDataDict (acc : Dict) : List (String × PyVal) → Option Dict
  | [] => some acc
  | kv :: rest =>
    match mergeDataEntry acc kv with
    | Option.none => Option.none
    | some acc1 => mergeDataDict acc1 rest

/-- Name recorded in tools_used for one result:
result.metadata.get('tool', 'unknown'). -/
def mergeToolName (r : ToolResult) : PyVal :=
  (dictGet r.metadata "tool").getD (PyVal.str "unknown")

/-- Main loop of merge_results over the successful results: merges data
dicts, concatenates citations and records tool names. -/
def mergeLoop : List ToolResult → Dict → List Citation → List PyVal →
    Option (Dict × List Citation × List PyVal)
  | [], acc, cits, tools => some (acc, cits, tools)
  | r :: rs, acc, cits, tools =>
    let acc1? : Option Dict :=
      match r.data with
      | PyVal.dict entries => mergeDataDict acc entries
      | _ => some acc
    match acc1? with
    | Option.none => Option.none
    | some acc1 => mergeLoop rs acc1 (cits ++ r.citations) (tools ++ [mergeToolName r])

/-- Duplicate removal over citations: first occurrence of each
(document, page_number) key wins, later ones are dropped. -/
def dedupCitations (seen : List (String × Nat)) : List Citation → List Citation
  | [] => []
  | c :: rest =>
    if citeKey c ∈ seen then dedupCitations seen rest
    else c :: dedupCitations (citeKey c :: seen) rest

def merge_results (results : List ToolResult) : Option ToolResult :=
  match results with
  | [] => some { success := false, error := some "No results to merge" }
  | r0 :: _ =>
    let successful := results.filter (fun r => r.success)
    match successful with
    | [] => some r0
    | _ =>
      match mergeLoop successful [] [] [] with
      | Option.none => Option.none
      | some (mergedData, allCitations, toolsUsed) =>
        some {
          success := true
          data := PyVal.dict mergedData
          metadata := [("tools_used", PyVal.list toolsUsed),
                       ("merge_count", PyVal.num successful.length)]
          citations := sortDesc (fun c => c.confidence_score)
            (dedupCitations [] allCitations) }

/-- Accumulator invariant: the answers key, when present, holds a list. -/
def GoodAcc (acc : Dict) : Prop :=
  ∀ v, dictGet acc "answers" = some v → ∃ xs, v = PyVal.list xs

/-- Data-dict proviso for one result. -/
def AnswersListy (r : ToolResult) : Prop :=
  ∀ entries, r.data = PyVal.dict entries →
    ∀ kv ∈ entries, kv.1 = "answers" → ∃ xs, kv.2 = PyVal.list xs

/-! ## Number formatting

Models of the two Python string interpolations used in skip reasons:
f-string formatting with .3f, and str() of a float threshold.  Floats are
modelled by rationals; rounding to a fixed number of decimals uses round
half to even as CPython does on the decimal expansion. -/
/-- Round half to even. -/
def rhe (q : ℚ) : ℤ :=
  let f : ℤ := ⌊q⌋
  let r : ℚ := q - (f : ℚ)
  if r < 1/2 then f
  else if 1/2 < r then f + 1
  else if f % 2 = 0 then f else f + 1

/-- Decimal digits of n padded with leading zeros to width d. -/
def padZeros (d : ℕ) (n : ℕ) : String :=
  let s := toString n
  String.mk (List.replicate (d - s.length) (Char.ofNat 48)) ++ s

/-- Python format spec .3f (for the magnitudes arising here; the sign of a
negative value rounding to zero is not tracked). -/
def fmtFixed3 (q : ℚ) : String :=
  let n := rhe (q * 1000)
  let m := n.natAbs
  (if n < 0 then "-" else "") ++ toString (m / 1000) ++ "." ++ padZeros 3 (m % 1000)

/-- Number of decimals str() prints for a float whose value is a decimal
rational: the least d between 1 and 17 making q times ten to the d an
integer (17-digit fallback otherwise). -/
def decDigits (q : ℚ) : ℕ :=
  (((List.range 17).map (fun i => i + 1)).find?
    (fun d => (q * (10 : ℚ) ^ d).den = 1)).getD 17

/-- Python str() of a float threshold. -/
def fmtPyFloat (q : ℚ) : String :=
  (if q < 0 then "-" else "") ++
    toString ((rhe (q * (10 : ℚ) ^ decDigits q)).natAbs / 10 ^ decDigits q) ++
    "." ++
    padZeros (decDigits q) ((rhe (q * (10 : ℚ) ^ decDigits q)).natAbs % 10 ^ decDigits q)

/-! ## Execution engine (src/agent/execution_engine.py)

Context maps passed between the orchestrator, the engine and tools hold
Python objects that include citation lists, so their value type extends
PyVal.  Tool execution is a function from the query and the current
context to an outcome; a raised exception carries its message.  Trace
entries are dict literals in insertion order. -/
inductive CtxVal where
  | py (v : PyVal)
  | cites (cs : List Citation)

abbrev CtxDict := List (String × CtxVal)

def ctxGet : CtxDict → String → Option CtxVal
  | [], _ => Option.none
  | (k1, v) :: t, k => if k1 = k then some v else ctxGet t k

def ctxSet : CtxDict → String → CtxVal → CtxDict
  | [], k, v => [(k, v)]
  | (k1, v1) :: t, k, v =>
    if k1 = k then (k1, v) :: t else (k1, v1) :: ctxSet t k v

def ctxHas (d : CtxDict) (k : String) : Bool :=
  (ctxGet d k).isSome

abbrev TraceEntry := List (String × CtxVal)

inductive ExecOutcome where
  | ok (r : ToolResult)
  | exn (msg : String)

/-- A tool as the engine sees it: a name and an execute function. -/
structure ETool where
  name : String
  exec : String → CtxDict → ExecOutcome

/-- Conditions attached to one tool name.  A requires or context_key value
that is None or empty is falsy in Python and disables that check, matching
tool_conditions.get returning a falsy value. -/
structure Cond where
  req : Option String := Option.none
  min_confidence : Option ℚ := Option.none
  max_confidence : Option ℚ := Option.none
  max_citations : Option ℕ := Option.none
  context_key : Option String := Option.none

def condsGet : List (String × Cond) → String → Option Cond
  | [], _ => Option.none
  | (k1, v) :: t, k => if k1 = k then some v else condsGet t k

/-- Pythonic equality of a metadata value against a string. -/
def pyEqStr (v : Option PyVal) (s : String) : Bool :=
  match v with
  | some (PyVal.str t) => t = s
  | _ => false

/-- The last prior result's metadata confidence with Python default 1.0;
Option.none when the stored value is not a number (the comparison in
_check_conditions would raise TypeError). -/
def resultConfidence (r : ToolResult) : Option ℚ :=
  match dictGet r.metadata "confidence" with
  | Option.none => some 1
  | some v => pyNum v

def skipReasonConfidence (c θ : ℚ) : String :=
  "confidence " ++ fmtFixed3 c ++ " >= " ++ fmtPyFloat θ

def skipReasonCitations (n t : ℕ) : String :=
  "citations " ++ toString n ++ " >= " ++ toString t

/-- Tail of _check_conditions after the max_confidence check:
max_citations then context_key. -/
def checkTail (tc : Cond) (previousResults : List ToolResult) (ctx : CtxDict) :
    Bool × CtxDict :=
  let citSkip : Option (ℕ × ℕ) :=
    match tc.max_citations with
    | some t =>
      match previousResults.getLast? with
      | some last =>
        if last.citations.length ≥ t then some (last.citations.length, t)
        else Option.none
      | Option.none => Option.none
    | Option.none => Option.none
  match citSkip with
  | some (n, t) =>
    (false, ctxSet ctx "skip_reason" (CtxVal.py (PyVal.str (skipReasonCitations n t))))
  | Option.none =>
    match tc.context_key with
    | some k => if k ≠ "" then (if ctxHas ctx k then (true, ctx) else (false, ctx))
      else (true, ctx)
    | Option.none => (true, ctx)

/-- Embedding of ExecutionEngine._check_conditions.  Returns whether the
tool should execute together with the context (which the Python code
mutates in place when recording a skip reason); Option.none models a
TypeError from comparing a non-numeric stored confidence. -/
def check_conditions (conds : List (String × Cond)) (toolName : String)
    (previousResults : List ToolResult) (ctx : CtxDict) :
    Option (Bool × CtxDict) :=
  match condsGet conds toolName with
  | Option.none => some (true, ctx)
  | some tc =>
    let reqFail : Bool :=
      match tc.req with
      | some s =>
        if s = "" then false
        else
          match previousResults.find?
              (fun r => pyEqStr (dictGet r.metadata "tool") s) with
          | some rr => !rr.success
          | Option.none => true
      | Option.none => false
    if reqFail then some (false, ctx)
    else
      let minCheck : Option Bool :=
        match tc.min_confidence with
        | some θ =>
          match previousResults.getLast? with
          | some last =>
            match resultConfidence last with
            | some c => some (decide (c < θ))
            | Option.none => Option.none
          | Option.none => some false
        | Option.none => some false
      match minCheck with
      | Option.none => Option.none
      | some true => some (false, ctx)
      | some false =>
        match tc.max_confidence with
        | some θ =>
          match previousResults.getLast? with
          | some last =>
            match resultConfidence last with
            | some c =>
              if θ ≤ c then
                some (false, ctxSet ctx "skip_reason"
                  (CtxVal.py (PyVal.str (skipReasonConfidence c θ))))
              else some (checkTail tc previousResults ctx)
            | Option.none => Option.none
          | Option.none => some (checkTail tc previousResults ctx)
        | Option.none => some (checkTail tc previousResults ctx)

/-- Engine state threaded through a run: the caller-supplied context
object, the working copy made by context.copy(), the collected results
and the execution trace. -/
structure EngState where
  caller : CtxDict
  cur : CtxDict
  results : List ToolResult
  trace : List TraceEntry

/-- Shared body of one tool execution (the try block of the sequential
and conditional loops; only the strategy tag in the trace differs). -/
def execBody (strategy : String) (query : String) (st : EngState)
    (tool : ETool) (confidence : ℚ) : EngState :=
  let st1 := { st with trace := st.trace ++
    [[("step", CtxVal.py (PyVal.str "execute_tool")),
      ("tool", CtxVal.py (PyVal.str tool.name)),
      ("confidence", CtxVal.py (PyVal.num confidence)),
      ("strategy", CtxVal.py (PyVal.str strategy))]] }
  match tool.exec query st1.cur with
  | ExecOutcome.ok result =>
    let st2 := { st1 with results := st1.results ++ [result] }
    if result.success then
      { st2 with
        cur := ctxSet (ctxSet st2.cur "previous_result" (CtxVal.py result.data))
          "previous_citations" (CtxVal.cites result.citations)
        trace := st2.trace ++
          [[("step", CtxVal.py (PyVal.str "tool_success")),
            ("tool", CtxVal.py (PyVal.str tool.name)),
            ("citations_count", CtxVal.py (PyVal.num result.citations.length))]] }
    else
      { st2 with trace := st2.trace ++
        [[("step", CtxVal.py (PyVal.str "tool_failure")),
          ("tool", CtxVal.py (PyVal.str tool.name)),
          ("error", CtxVal.py ((result.error.map PyVal.str).getD PyVal.none))]] }
  | ExecOutcome.exn e =>
    { st1 with
      results := st1.results ++
        [{ success := false, error := some e,
           metadata := [("tool", PyVal.str tool.name)] }]
      trace := st1.trace ++
        [[("step", CtxVal.py (PyVal.str "tool_error")),
          ("tool", CtxVal.py (PyVal.str tool.name)),
          ("error", CtxVal.py (PyVal.str e))]] }

/-- Embedding of ExecutionEngine._execute_sequential; the state starts
with current_context = context.copy(). -/
def execute_sequential (query : String) (ctx : CtxDict)
    (tools : List (ETool × ℚ)) : EngState :=
  tools.foldl (fun st tc => execBody "sequential" query st tc.1 tc.2)
    { caller := ctx, cur := ctx, results := [], trace := [] }

/-- One iteration of the conditional loop. -/
def condStep (query : String) (conds : List (String × Cond))
    (st : EngState) (tc : ETool × ℚ) : Option EngState :=
  match check_conditions conds tc.1.name st.results st.cur with
  | Option.none => Option.none
  | some (shouldExecute, ctx1) =>
    let st1 := { st with cur := ctx1 }
    if shouldExecute then
      some (execBody "conditional" query st1 tc.1 tc.2)
    else
      let reason : CtxVal := (ctxGet st1.cur "skip_reason").getD
        (CtxVal.py (PyVal.str "condition_not_met"))
      some { st1 with trace := st1.trace ++
        [[("step", CtxVal.py (PyVal.str "skip_tool")),
          ("tool", CtxVal.py (PyVal.str tc.1.name)),
          ("reason", reason)]] }

/-- Embedding of ExecutionEngine._execute_conditional. -/
def execute_conditional (query : String) (ctx : CtxDict)
    (conds : List (String × Cond)) (tools : List (ETool × ℚ)) :
    Option EngState :=
  tools.foldlM (condStep query conds)
    { caller := ctx, cur := ctx, results := [], trace := [] }

/-! ## Tool registry (src/tools/__init__.py)

A registered tool is a name and a can_handle scorer; Option.none models a
raised exception, which get_suitable_tools catches by logging and moving
on without appending anything.  The registry iterates its tools in
registration order (CPython dict order). -/
structure RTool where
  name : String
  can_handle : String → CtxDict → Option ℚ

/-- Pairs appended by the loop of get_suitable_tools, in registry order. -/
def suitableCandidates (tools : List RTool) (query : String) (ctx : CtxDict)
    (min_confidence : ℚ) : List (RTool × ℚ) :=
  tools.filterMap (fun tool =>
    match tool.can_handle query ctx with
    | some confidence =>
      if min_confidence ≤ confidence then some (tool, confidence) else Option.none
    | Option.none => Option.none)

/-- Embedding of ToolRegistry.get_suitable_tools: filter then stable sort
by confidence, descending. -/
def get_suitable_tools (tools : List RTool) (query : String) (ctx : CtxDict)
    (min_confidence : ℚ) : List (RTool × ℚ) :=
  sortDesc (fun p => p.2) (suitableCandidates tools query ctx min_confidence)

/-! ## Query analyzer (src/agent/query_analyzer.py)

String helpers model the Python primitives used there, for ASCII text:
str.lower, str.strip, whitespace split, substring membership, character
counting, re.split on a character class, and whole-word regex matches. -/
def pyLower (s : String) : String := String.mk (s.data.map Char.toLower)

/-- Python str.strip() with no argument: drop whitespace from both ends. -/
def pyStrip (s : String) : String :=
  String.mk (((s.data.dropWhile Char.isWhitespace).reverse.dropWhile
    Char.isWhitespace).reverse)

/-- Maximal runs of characters satisfying p. -/
def runsAux (p : Char → Bool) (cur : List Char) : List Char → List (List Char)
  | [] => if cur.isEmpty then [] else [cur.reverse]
  | c :: rest =>
    if p c then runsAux p (c :: cur) rest
    else if cur.isEmpty then runsAux p [] rest
    else cur.reverse :: runsAux p [] rest

/-- Python str.split() with no separator: the maximal non-whitespace runs. -/
def pySplitWs (s : String) : List String :=
  (runsAux (fun c => !c.isWhitespace) [] s.data).map String.mk

def subListAux (pat : List Char) : List Char → Bool
  | [] => pat.isEmpty
  | c :: rest => pat.isPrefixOf (c :: rest) || subListAux pat rest

/-- Python substring membership pat in s. -/
def strIn (pat s : String) : Bool := subListAux pat.data s.data

/-- Python str.startswith. -/
def strStartsWith (s pat : String) : Bool := pat.data.isPrefixOf s.data

/-- Splitting on maximal runs of separator characters, keeping empty
pieces at the ends, as re.split with a one-or-more character class does. -/
def splitRunsAux (p : Char → Bool) (acc : List Char) : List Char → List (List Char)
  | [] => [acc.reverse]
  | c :: rest =>
    if p c then acc.reverse :: splitRunsAux p [] (rest.dropWhile p)
    else splitRunsAux p (c :: acc) rest
termination_by l => l.length
decreasing_by
  · exact Nat.lt_succ_of_le (List.Sublist.length_le (List.dropWhile_sublist p))
  · simp

/-- Sentence count of _assess_complexity: length of
re.split(r'[.!?]+', query.strip()). -/
def sentenceCount (query : String) : ℕ :=
  (splitRunsAux (fun c => c = Char.ofNat 46 || c = Char.ofNat 33 || c = Char.ofNat 63)
    [] (pyStrip query).data).length

/-- Word character of the regex class \w (ASCII). -/
def isWordChar (c : Char) : Bool := c.isAlphanum || c = Char.ofNat 95

/-- Count of whole-word case-insensitive matches of and and or, as
re.findall with word boundaries computes: word boundaries force each
match to be a maximal word-character run, so the matches are exactly the
word tokens equal to one of the two words. -/
def andOrCount (query : String) : ℕ :=
  (runsAux isWordChar [] query.data).countP
    (fun t => pyLower (String.mk t) = "and" || pyLower (String.mk t) = "or")

def multiStepKeywords : List String := ["then", "after", "first", "next", "finally", "also"]

/-- Complexity score of _assess_complexity, summed exactly as the source
accumulates it: word count (over 20 adds 2, over 10 adds 1), sentence
count (over 2 adds 2, over 1 adds 1), question marks (over 1 adds 2),
whole-word and/or matches (over 2 adds 2, any adds 1), commas (over 2
adds 1), multi-step keyword presence (adds 3). -/
def complexityScore (query : String) : ℕ :=
  (if (pySplitWs query).length > 20 then 2
   else if (pySplitWs query).length > 10 then 1 else 0)
  + (if sentenceCount query > 2 then 2
     else if sentenceCount query > 1 then 1 else 0)
  + (if query.data.count (Char.ofNat 63) > 1 then 2 else 0)
  + (if andOrCount query > 2 then 2 else if andOrCount query > 0 then 1 else 0)
  + (if query.data.count (Char.ofNat 44) > 2 then 1 else 0)
  + (if multiStepKeywords.any (fun kw => strIn kw (pyLower query)) then 3 else 0)

/-- Embedding of QueryAnalyzer._assess_complexity. -/
def assess_complexity (query : String) : String :=
  if complexityScore query ≥ 5 then "complex"
  else if complexityScore query ≥ 2 then "moderate" else "simple"

def conversationalPatterns : List String :=
  ["hi", "hello", "hey", "thanks", "thank you", "bye", "goodbye",
   "ok", "okay", "got it", "understood", "sure", "great", "good",
   "cool", "nice", "awesome", "perfect"]

def comparisonKeywords : List String :=
  ["compare", "versus", " vs ", " vs.", "difference", "contrast",
   "similarities", "differ"]

def summarizationKeywords : List String :=
  ["summarize", "summary", "overview", "key points", "main points",
   "highlights", "brief"]

def calculationKeywords : List String :=
  ["calculate", "compute", " sum ", "total", "average", "%", "percentage"]

def externalKeywords : List String :=
  ["current", "latest", "recent", "today", "now", "news",
   "weather", "stock price", "exchange rate"]

/-- Embedding of QueryAnalyzer._rule_based_classify_intent. -/
def rule_based_classify_intent (query : String) : String :=
  let query_lower := pyStrip (pyLower query)
  let words := pySplitWs query_lower
  if words.length = 1 && conversationalPatterns.contains (words.headD "") then
    "conversational"
  else if words.length ≤ 3 && !(strIn "?" query) &&
      words.any (fun w => conversationalPatterns.contains w) then
    "conversational"
  else if comparisonKeywords.any (fun kw => strIn kw query_lower) then
    "comparison"
  else if summarizationKeywords.any (fun kw => strIn kw query_lower) then
    "summarization"
  else if calculationKeywords.any (fun kw => strIn kw query_lower) ||
      (query.data.any Char.isDigit &&
        ["+", "-", "*", "/"].any (fun op => strIn op query)) then
    "calculation"
  else if externalKeywords.any (fun kw => strIn kw query_lower) then
    "external"
  else "factual"

/-! ## Citation enhancer (src/citation_enhancer.py)

Embedding of CitationEnhancer._calculate_confidence.  The Python
expressions similarity_score or 0.0 and cross_encoder_score or 0.0 are
the identity on numeric fields; rank_position or 10 maps the falsy rank 0
to 10.  Option.none models the TypeError raised when the tool metadata
stores a non-numeric confidence. -/
/-- Rank-based confidence: rank_position or 10, so the falsy rank 0 is
replaced by 10, then max(0.1, 1.0 - (rank - 1) * 0.1). -/
def rankConfidence (rank_position : ℕ) : ℚ :=
  max 0.1 (1 - ((((if rank_position = 0 then 10 else rank_position) : ℕ) : ℚ) - 1) * 0.1)

/-- Tool confidence result.metadata.get('confidence', 1.0); Option.none
models the TypeError of arithmetic on a non-numeric stored value. -/
def toolConfidence (md : Dict) : Option ℚ :=
  match dictGet md "confidence" with
  | Option.none => some 1
  | some v => pyNum v

def calculate_confidence (citation : Citation) (result : ToolResult) : Option ℚ :=
  match toolConfidence result.metadata with
  | Option.none => Option.none
  | some tool_confidence =>
    some (max 0 (min 1 (
      if citation.cross_encoder_score > 0 then
        citation.similarity_score * 0.3 + citation.cross_encoder_score * 0.4 +
          rankConfidence citation.rank_position * 0.2 + tool_confidence * 0.1
      else
        citation.similarity_score * 0.5 + rankConfidence citation.rank_position * 0.3 +
          tool_confidence * 0.2)))

/-- Confidence formula exactly as the specification words it, for
comparison with the code: r is computed from rank_position itself with no
special case at zero. -/
def specClaimConfidence (citation : Citation) (result : ToolResult) : ℚ :=
  if citation.cross_encoder_score > 0 then
    max 0 (min 1 (0.3 * citation.similarity_score +
      0.4 * citation.cross_encoder_score +
      0.2 * max 0.1 (1 - 0.1 * ((citation.rank_position : ℚ) - 1)) +
      0.1 * (((dictGet result.metadata "confidence").bind pyNum).getD 1)))
  else
    max 0 (min 1 (0.5 * citation.similarity_score +
      0.3 * max 0.1 (1 - 0.1 * ((citation.rank_position : ℚ) - 1)) +
      0.2 * (((dictGet result.metadata "confidence").bind pyNum).getD 1)))

/-! ## Orchestrator response synthesis (src/agent/orchestrator.py)

The answer-synthesis chain is an injected collaborator; it is a parameter
here, of type query and context documents to an optional response dict,
with Option.none covering both a raised exception (caught in the source)
and a falsy response. -/
/-- Python repr of an embedded value (str uses the same text for the
containers and numbers appearing here). -/
def pyRepr : PyVal → String
  | PyVal.none => "None"
  | PyVal.bool b => if b then "True" else "False"
  | PyVal.num q => fmtPyFloat q
  | PyVal.str s => "\x27" ++ s ++ "\x27"
  | PyVal.list xs =>
    "[" ++ String.intercalate ", " (xs.attach.map (fun p => pyRepr p.1)) ++ "]"
  | PyVal.dict d => "\x7b" ++
      String.intercalate ", "
        (d.attach.map (fun p => "\x27" ++ p.1.1 ++ "\x27: " ++ pyRepr p.1.2)) ++
      "\x7d"
decreasing_by
  · have h := List.sizeOf_lt_of_mem p.2
    have hc : sizeOf (PyVal.list xs) = 1 + sizeOf xs := by simp
    omega
  · have h := List.sizeOf_lt_of_mem p.2
    have hc : sizeOf (PyVal.dict d) = 1 + sizeOf d := by simp
    have h2 : sizeOf p.1.2 < sizeOf p.1 := by
      obtain ⟨⟨a, b⟩, hm⟩ := p
      simp
      try omega
    omega

/-- Python str of an embedded value. -/
def pyStr : PyVal → String
  | PyVal.str s => s
  | v => pyRepr v

def elemEqStr (x : PyVal) (s : String) : Bool :=
  match x with
  | PyVal.str t => t = s
  | _ => false

/-- Python membership s in v for the container kinds that can appear;
Option.none is the TypeError on a non-iterable right operand. -/
def pyInStr (v : PyVal) (s : String) : Option Bool :=
  match v with
  | PyVal.list xs => some (xs.any (fun x => elemEqStr x s))
  | PyVal.str t => some (strIn s t)
  | PyVal.dict d => some (d.any (fun kv => kv.1 = s))
  | _ => Option.none

def strsOf : List PyVal → Option (List String)
  | [] => some []
  | PyVal.str s :: rest => (strsOf rest).map (fun l => s :: l)
  | _ => Option.none

/-- Python sep.join(v); Option.none is the TypeError on a non-iterable
argument or a non-string element. -/
def pyJoin (sep : String) : PyVal → Option String
  | PyVal.list xs => (strsOf xs).map (String.intercalate sep)
  | PyVal.str s => some (String.intercalate sep (s.data.map Char.toString))
  | PyVal.dict d => some (String.intercalate sep (d.map (fun kv => kv.1)))
  | _ => Option.none

abbrev QaChain := String → List PyVal → Option Dict

/-- Fall-through tail of _extract_answer: the answer-generation attempt
through the QA chain and the final defaults.  The web-search failure scan
at the top of the source function feeds only logging and is dropped. -/
def extractAnswerTail (qaChain : Option QaChain) (result : ToolResult)
    (query : String) : PyVal :=
  let qaAttempt : Option PyVal :=
    match qaChain with
    | some qa =>
      if pyTruthy result.data || !result.citations.isEmpty then
        let context_documents : List PyVal :=
          if pyTruthy result.data then
            match result.data with
            | PyVal.list xs => xs
            | v => [v]
          else
            result.citations.map (fun c =>
              PyVal.dict [("content", PyVal.str c.content),
                          ("metadata", PyVal.dict c.metadata)])
        match qa query context_documents with
        | some resp =>
          if !resp.isEmpty then
            match dictGet resp "answer" with
            | some a => if pyTruthy a then some a else Option.none
            | Option.none => Option.none
          else Option.none
        | Option.none => Option.none
      else Option.none
    | Option.none => Option.none
  match qaAttempt with
  | some a => a
  | Option.none =>
    if !(pyTruthy result.data) && result.citations.isEmpty then
      PyVal.str "No answer available."
    else if pyTruthy result.data then
      PyVal.str (pyStr result.data)
    else
      PyVal.str "No answer available."

def headerSynthesized : String :=
  "**Answer synthesized from internal documents and external sources:**\n\n"

def headerExternalLowKb : String :=
  "**Answer from external sources** (internal documents had low relevance):\n\n"

def headerExternalOnly : String :=
  "**Answer from external sources:**\n\n"

/-- Embedding of AgenticOrchestrator._extract_answer.  Option.none models
an uncaught exception (a TypeError from joining non-strings, testing
membership in a non-iterable tools_used, or comparing a non-numeric
kb_confidence). -/
def extract_answer (qaChain : Option QaChain) (result : ToolResult)
    (query : String) (failed_tools : List ToolResult) : Option PyVal :=
  match result.data with
  | PyVal.dict d =>
    match dictGet d "answer" with
    | some answer => some answer
    | Option.none =>
      match dictGet d "answers" with
      | some answers =>
        let tools_used : PyVal :=
          (dictGet result.metadata "tools_used").getD (PyVal.list [])
        match pyInStr tools_used "semantic_search" with
        | Option.none => Option.none
        | some kb1 =>
          match (if kb1 then some true else pyInStr tools_used "keyword_search") with
          | Option.none => Option.none
          | some has_kb =>
            match pyInStr tools_used "web_search" with
            | Option.none => Option.none
            | some has_web =>
              if has_web && has_kb then
                match pyNum ((dictGet result.metadata "kb_confidence").getD
                    (PyVal.num 0)) with
                | Option.none => Option.none
                | some kb_confidence =>
                  match pyJoin "\n\n" answers with
                  | Option.none => Option.none
                  | some joined =>
                    let header :=
                      if kb_confidence > 0.3 then headerSynthesized
                      else headerExternalLowKb
                    some (PyVal.str (header ++ joined))
              else if has_web then
                match pyJoin "\n\n" answers with
                | Option.none => Option.none
                | some joined => some (PyVal.str (headerExternalOnly ++ joined))
              else
                match pyJoin "\n\n" answers with
                | Option.none => Option.none
                | some joined => some (PyVal.str joined)
      | Option.none => some (extractAnswerTail qaChain result query)
  | _ => some (extractAnswerTail qaChain result query)

structure Analysis where
  complexity : String
  intent : String

structure AgenticResponse where
  answer : PyVal
  sources : List Citation := []
  reasoning_trace : List TraceEntry := []
  metadata : Dict := []
  mode : String := "agentic"

def isKbTool (r : ToolResult) : Bool :=
  pyEqStr (dictGet r.metadata "tool") "semantic_search" ||
    pyEqStr (dictGet r.metadata "tool") "keyword_search"

/-- Python truthiness test of a possibly non-numeric value against 0.0,
as in kb_confidence != 0.0 (never raises). -/
def pyNeZero (v : PyVal) : Bool :=
  match pyNum v with
  | some q => decide (q ≠ 0)
  | Option.none => true

/-- Embedding of AgenticOrchestrator._synthesize_response. -/
def synthesize_response (qaChain : Option QaChain) (query : String)
    (results : List ToolResult) (analysis : Analysis) :
    Option AgenticResponse :=
  let attempted_tools : List PyVal :=
    results.map (fun r => (dictGet r.metadata "tool").getD (PyVal.str "unknown"))
  let successful := results.filter (fun r => r.success)
  let failed := results.filter (fun r => !r.success)
  if successful.isEmpty then
    let error_messages : List String := results.filterMap (fun r =>
      match r.error with
      | some e => if e = "" then Option.none else some e
      | Option.none => Option.none)
    let ans : PyVal := PyVal.str
      ("I couldn\x27t find an answer to your query. Errors: " ++
        String.intercalate "; " error_messages)
    some { answer := ans
           sources := []
           metadata := [("all_tools_failed", PyVal.bool true),
                        ("attempted_tools", PyVal.list attempted_tools)] }
  else
    match merge_results successful with
    | Option.none => Option.none
    | some merged =>
      let kbv : PyVal :=
        match successful.find? isKbTool with
        | some r => (dictGet r.metadata "confidence").getD (PyVal.num 0)
        | Option.none => PyVal.num 0
      let merged1 :=
        if pyNeZero kbv then
          { merged with metadata := dictSet merged.metadata "kb_confidence" kbv }
        else merged
      match extract_answer qaChain merged1 query failed with
      | Option.none => Option.none
      | some answer =>
        let meta : Dict :=
          [("tools_used", (dictGet merged1.metadata "tools_used").getD
              (PyVal.list [])),
           ("attempted_tools", PyVal.list attempted_tools),
           ("failed_tools", PyVal.list (failed.map (fun r =>
              (dictGet r.metadata "tool").getD PyVal.none))),
           ("result_count", PyVal.num successful.length),
           ("complexity", PyVal.str analysis.complexity),
           ("intent", PyVal.str analysis.intent),
           ("kb_confidence", if pyNeZero kbv then kbv else PyVal.none)]
        some { answer := answer
               sources := merged1.citations
               metadata := meta }

/-! ## Concrete sample inputs used by witnesses and counterexamples -/
def sampleFail1 : ToolResult := { success := false, error := some "boom" }

def sampleFail2 : ToolResult :=
  { success := false, error := some "e2", metadata := [("tool", PyVal.str "web_search")] }

def sampleCitA : Citation :=
  { document := "A", page_number := 1, confidence_score := 0.5 }

def sampleCitA2 : Citation :=
  { document := "A", page_number := 1, confidence_score := 0.9 }

def sampleCitB : Citation :=
  { document := "B", page_number := 2, confidence_score := 0.7 }

def sampleOkA : ToolResult :=
  { success := true
    data := PyVal.dict [("answer", PyVal.str "a1")]
    metadata := [("tool", PyVal.str "semantic_search"), ("confidence", PyVal.num 0.2)]
    citations := [sampleCitA, sampleCitB] }

def sampleOkB : ToolResult :=
  { success := true
    data := PyVal.dict [("answer", PyVal.str "a2")]
    metadata := [("tool", PyVal.str "web_search")]
    citations := [sampleCitA2] }

/-- Successful result whose data maps answers to a non-list value. -/
def sampleAnswersStr : ToolResult :=
  { success := true, data := PyVal.dict [("answers", PyVal.str "x")] }

/-- Merged result with low kb_confidence, internal and web tools, and two
collected answers. -/
def sampleMergedLowKb : ToolResult :=
  { success := true
    data := PyVal.dict [("answers", PyVal.list [PyVal.str "foo", PyVal.str "bar"])]
    metadata := [("tools_used",
        PyVal.list [PyVal.str "semantic_search", PyVal.str "web_search"]),
      ("kb_confidence", PyVal.num 0.2)] }

def sampleRankZeroCit : Citation := { document := "d", rank_position := 0 }

def sampleEmptyMeta : ToolResult := { success := true }

/-- Prior successful semantic-search result with confidence 0.8. -/
def samplePrevHigh : ToolResult :=
  { success := true
    metadata := [("tool", PyVal.str "semantic_search"), ("confidence", PyVal.num 0.8)] }

/-- Prior successful semantic-search result with confidence 0.9. -/
def samplePrevHigher : ToolResult :=
  { success := true
    metadata := [("tool", PyVal.str "semantic_search"), ("confidence", PyVal.num 0.9)] }

def sampleExnExec : String → CtxDict → ExecOutcome := fun _ _ => ExecOutcome.exn "down"

def sampleStHigh : EngState :=
  { caller := [], cur := [], results := [samplePrevHigh], trace := [] }

def sampleStHigher : EngState :=
  { caller := [], cur := [], results := [samplePrevHigher], trace := [] }

/-- Conditions map marking web_search with max_confidence 0.5 only. -/
def sampleCondsMaxOnly : List (String × Cond) :=
  [("web_search", { max_confidence := some 0.5 })]

/-- Conditions map whose web_search entry contains max_confidence 0.5 and
additionally a requires entry naming a tool that produced no result. -/
def sampleCondsWithReq : List (String × Cond) :=
  [("web_search", { req := some "toolX", max_confidence := some 0.5 })]

def sampleBadRTool : RTool := { name := "bad", can_handle := fun _ _ => Option.none }

def sampleRTool1 : RTool := { name := "t1", can_handle := fun _ _ => some 0.5 }

def sampleRTool2 : RTool := { name := "t2", can_handle := fun _ _ => some 0.9 }

def sampleCtx0 : CtxDict := [("session", CtxVal.py (PyVal.str "s"))]

def sampleETool0 : ETool := { name := "t0", exec := sampleExnExec }

/-! ## Claim theorems -/
/-- ToolResult(success=False, error="No results to merge") with the
dataclass defaults. -/
def emptyMergeFailure : ToolResult :=
  { success := false
    data := PyVal.none
    error := some "No results to merge"
    metadata := []
    citations := [] }

/-- State computed by the conditional run of the single sample tool, whose
execute raises. -/
def sampleCondRunState : EngState :=
  { caller := sampleCtx0
    cur := sampleCtx0
    results := [{ success := false, error := some "down", metadata := [("tool", PyVal.str "t0")] }]
    trace := [[("step", CtxVal.py (PyVal.str "execute_tool")),
               ("tool", CtxVal.py (PyVal.str "t0")),
               ("confidence", CtxVal.py (PyVal.num 1)),
               ("strategy", CtxVal.py (PyVal.str "conditional"))],
              [("step", CtxVal.py (PyVal.str "tool_error")),
               ("tool", CtxVal.py (PyVal.str "t0")),
               ("error", CtxVal.py (PyVal.str "down"))]] }

/-! ## Supporting lemmas and claim theorems -/

theorem insertDesc_perm (f : α → ℚ) (x : α) (l : List α) :
    List.Perm (insertDesc f x l) (x :: l) := by
  induction l with
  | nil => simp [insertDesc]
  | cons y ys ih =>
    simp only [insertDesc]
    by_cases h : f x < f y
    · rw [if_pos h]
      exact (ih.cons y).trans (List.Perm.swap x y ys)
    · rw [if_neg h]

theorem sortDesc_perm (f : α → ℚ) (l : List α) :
    List.Perm (sortDesc f l) l := by
  induction l with
  | nil => simp [sortDesc]
  | cons x xs ih =>
    exact (insertDesc_perm f x (sortDesc f xs)).trans (ih.cons x)

theorem insertDesc_sorted (f : α → ℚ) (x : α) (l : List α)
    (h : l.Pairwise (fun a b => f b ≤ f a)) :
    (insertDesc f x l).Pairwise (fun a b => f b ≤ f a) := by
  induction l with
  | nil => simp [insertDesc]
  | cons y ys ih =>
    rcases List.pairwise_cons.mp h with ⟨hy, hys⟩
    simp only [insertDesc]
    by_cases hxy : f x < f y
    · rw [if_pos hxy]
      refine List.pairwise_cons.mpr ⟨?_, ih hys⟩
      intro a ha
      have hmem := (insertDesc_perm f x ys).mem_iff.mp ha
      rcases List.mem_cons.mp hmem with rfl | hmem
      · exact le_of_lt hxy
      · exact hy a hmem
    · rw [if_neg hxy]
      push_neg at hxy
      refine List.pairwise_cons.mpr ⟨?_, h⟩
      intro a ha
      rcases List.mem_cons.mp ha with rfl | hmem
      · exact hxy
      · exact le_trans (hy a hmem) hxy

theorem sortDesc_sorted (f : α → ℚ) (l : List α) :
    (sortDesc f l).Pairwise (fun a b => f b ≤ f a) := by
  induction l with
  | nil => simp [sortDesc]
  | cons x xs ih => exact insertDesc_sorted f x (sortDesc f xs) ih

/-- Stability of the insertion step: elements carrying any fixed key value
appear in the output in exactly their input order, with x in front of the
ties since it is the element being inserted from the head of the input. -/
theorem insertDesc_filter_eq (f : α → ℚ) (x : α) (l : List α) (q : ℚ) :
    (insertDesc f x l).filter (fun a => decide (f a = q)) =
      if f x = q then x :: l.filter (fun a => decide (f a = q))
      else l.filter (fun a => decide (f a = q)) := by
  induction l with
  | nil =>
    by_cases h : f x = q <;> simp [insertDesc, h]
  | cons y ys ih =>
    simp only [insertDesc]
    by_cases hlt : f x < f y
    · rw [if_pos hlt]
      by_cases hq : f x = q
      · have hyq : ¬ f y = q := by
          intro hyq; rw [hq] at hlt; rw [hyq] at hlt; exact lt_irrefl q hlt
        simp [List.filter_cons, hq, hyq, ih]
      · by_cases hyq : f y = q <;> simp [List.filter_cons, hq, hyq, ih]
    · rw [if_neg hlt]
      by_cases hq : f x = q <;> by_cases hyq : f y = q <;>
        simp [List.filter_cons, hq, hyq]

/-- Stability of the sort: the subsequence of ties at any key value is the
corresponding subsequence of the input, in input order. -/
theorem sortDesc_filter_eq (f : α → ℚ) (l : List α) (q : ℚ) :
    (sortDesc f l).filter (fun a => decide (f a = q)) =
      l.filter (fun a => decide (f a = q)) := by
  induction l with
  | nil => simp [sortDesc]
  | cons x xs ih =>
    by_cases hq : f x = q <;>
      simp [sortDesc, insertDesc_filter_eq, hq, ih]

/-! Supporting lemmas about the dictionary and the merge loop. -/
theorem dictGet_dictSet (d : Dict) (k k1 : String) (v : PyVal) :
    dictGet (dictSet d k v) k1 = if k = k1 then some v else dictGet d k1 := by
  induction d with
  | nil =>
    by_cases h : k = k1 <;> simp [dictSet, dictGet, h]
  | cons hd t ih =>
    obtain ⟨k2, v2⟩ := hd
    by_cases h2 : k2 = k
    · subst h2
      by_cases h : k2 = k1 <;> simp [dictSet, dictGet, h]
    · by_cases h : k = k1
      · subst h
        simp [dictSet, dictGet, h2, ih, Ne.symm h2]
      · by_cases h3 : k2 = k1 <;>
          simp [dictSet, dictGet, h2, h3, ih, h, Ne.symm h]

theorem mergeDataEntry_some (acc : Dict) (kv : String × PyVal)
    (hacc : GoodAcc acc)
    (hkv : kv.1 = "answers" → ∃ xs, kv.2 = PyVal.list xs) :
    ∃ acc1, mergeDataEntry acc kv = some acc1 ∧ GoodAcc acc1 := by
  by_cases hans : kv.1 = "answer"
  · by_cases hhas : dictHas acc "answers"
    · rcases Option.isSome_iff_exists.mp hhas with ⟨v, hv⟩
      rcases hacc v hv with ⟨xs, rfl⟩
      refine ⟨dictSet acc "answers" (PyVal.list (xs ++ [kv.2])), ?_, ?_⟩
      · simp [mergeDataEntry, hans, hhas, hv]
      · intro w hw
        rw [dictGet_dictSet] at hw
        simp at hw
        exact ⟨xs ++ [kv.2], hw.symm⟩
    · refine ⟨dictSet (dictSet acc "answers" (PyVal.list []))
        "answers" (PyVal.list ([] ++ [kv.2])), ?_, ?_⟩
      · simp [mergeDataEntry, hans, hhas, dictGet_dictSet]
      · intro w hw
        rw [dictGet_dictSet] at hw
        simp at hw
        exact ⟨[] ++ [kv.2], hw.symm⟩
  · have setGood : ∀ w, (∃ xs, w = PyVal.list xs) ∨ kv.1 ≠ "answers" →
        GoodAcc (dictSet acc kv.1 w) := by
      intro w hw v hv
      rw [dictGet_dictSet] at hv
      by_cases hk : kv.1 = "answers"
      · rw [if_pos hk] at hv
        rcases hw with hlist | hne
        · rcases hlist with ⟨xs, rfl⟩
          exact ⟨xs, by injection hv with h; exact h.symm⟩
        · exact absurd hk hne
      · rw [if_neg hk] at hv
        exact hacc v hv
    cases hget : dictGet acc kv.1 with
    | none =>
      refine ⟨dictSet acc kv.1 kv.2, ?_, ?_⟩
      · simp [mergeDataEntry, hans, hget]
      · by_cases hk : kv.1 = "answers"
        · exact setGood kv.2 (Or.inl (hkv hk))
        · exact setGood kv.2 (Or.inr hk)
    | some v =>
      cases v with
      | list xs =>
        exact ⟨dictSet acc kv.1 (PyVal.list (xs ++ [kv.2])),
          by simp [mergeDataEntry, hans, hget],
          setGood _ (Or.inl ⟨xs ++ [kv.2], rfl⟩)⟩
      | none =>
        exact ⟨dictSet acc kv.1 (PyVal.list [PyVal.none, kv.2]),
          by simp [mergeDataEntry, hans, hget],
          setGood _ (Or.inl ⟨_, rfl⟩)⟩
      | bool b =>
        exact ⟨dictSet acc kv.1 (PyVal.list [PyVal.bool b, kv.2]),
          by simp [mergeDataEntry, hans, hget],
          setGood _ (Or.inl ⟨_, rfl⟩)⟩
      | num q =>
        exact ⟨dictSet acc kv.1 (PyVal.list [PyVal.num q, kv.2]),
          by simp [mergeDataEntry, hans, hget],
          setGood _ (Or.inl ⟨_, rfl⟩)⟩
      | str s =>
        exact ⟨dictSet acc kv.1 (PyVal.list [PyVal.str s, kv.2]),
          by simp [mergeDataEntry, hans, hget],
          setGood _ (Or.inl ⟨_, rfl⟩)⟩
      | dict d =>
        exact ⟨dictSet acc kv.1 (PyVal.list [PyVal.dict d, kv.2]),
          by simp [mergeDataEntry, hans, hget],
          setGood _ (Or.inl ⟨_, rfl⟩)⟩

theorem mergeDataDict_some (entries : List (String × PyVal)) (acc : Dict)
    (hacc : GoodAcc acc)
    (hkv : ∀ kv ∈ entries, kv.1 = "answers" → ∃ xs, kv.2 = PyVal.list xs) :
    ∃ acc1, mergeDataDict acc entries = some acc1 ∧ GoodAcc acc1 := by
  induction entries generalizing acc with
  | nil => exact ⟨acc, rfl, hacc⟩
  | cons kv rest ih =>
    rcases mergeDataEntry_some acc kv hacc
      (hkv kv (List.mem_cons_self kv rest)) with ⟨acc1, he, hg⟩
    rcases ih acc1 hg (fun kv2 h2 => hkv kv2 (List.mem_cons_of_mem kv h2))
      with ⟨acc2, he2, hg2⟩
    exact ⟨acc2, by simp [mergeDataDict, he, he2], hg2⟩

theorem mergeLoop_some (l : List ToolResult) (acc : Dict)
    (cits : List Citation) (tools : List PyVal)
    (hacc : GoodAcc acc) (hl : ∀ r ∈ l, AnswersListy r) :
    ∃ accF, mergeLoop l acc cits tools =
      some (accF, cits ++ (l.map (fun r => r.citations)).flatten,
            tools ++ l.map mergeToolName) := by
  induction l generalizing acc cits tools with
  | nil => exact ⟨acc, by simp [mergeLoop]⟩
  | cons r rs ih =>
    have hr := hl r (List.mem_cons_self r rs)
    have hrs := fun x hx => hl x (List.mem_cons_of_mem r hx)
    cases hdata : r.data with
    | dict entries =>
      rcases mergeDataDict_some entries acc hacc (hr entries hdata)
        with ⟨acc1, he, hg⟩
      rcases ih acc1 (cits ++ r.citations) (tools ++ [mergeToolName r]) hg hrs
        with ⟨accF, hloop⟩
      exact ⟨accF, by simp [mergeLoop, hdata, he, hloop]⟩
    | none =>
      rcases ih acc (cits ++ r.citations) (tools ++ [mergeToolName r]) hacc hrs
        with ⟨accF, hloop⟩
      exact ⟨accF, by simp [mergeLoop, hdata, hloop]⟩
    | bool b =>
      rcases ih acc (cits ++ r.citations) (tools ++ [mergeToolName r]) hacc hrs
        with ⟨accF, hloop⟩
      exact ⟨accF, by simp [mergeLoop, hdata, hloop]⟩
    | num q =>
      rcases ih acc (cits ++ r.citations) (tools ++ [mergeToolName r]) hacc hrs
        with ⟨accF, hloop⟩
      exact ⟨accF, by simp [mergeLoop, hdata, hloop]⟩
    | str s =>
      rcases ih acc (cits ++ r.citations) (tools ++ [mergeToolName r]) hacc hrs
        with ⟨accF, hloop⟩
      exact ⟨accF, by simp [mergeLoop, hdata, hloop]⟩
    | list xs =>
      rcases ih acc (cits ++ r.citations) (tools ++ [mergeToolName r]) hacc hrs
        with ⟨accF, hloop⟩
      exact ⟨accF, by simp [mergeLoop, hdata, hloop]⟩

theorem dedupCitations_pairwise (seen : List (String × Nat)) (l : List Citation) :
    (dedupCitations seen l).Pairwise (fun a b => citeKey a ≠ citeKey b) ∧
      ∀ c ∈ dedupCitations seen l, citeKey c ∉ seen := by
  induction l generalizing seen with
  | nil => simp [dedupCitations]
  | cons c rest ih =>
    by_cases hmem : citeKey c ∈ seen
    · simpa [dedupCitations, hmem] using ih seen
    · rcases ih (citeKey c :: seen) with ⟨hpw, hseen⟩
      refine ⟨?_, ?_⟩
      · simp only [dedupCitations, if_neg hmem]
        refine List.pairwise_cons.mpr ⟨?_, hpw⟩
        intro b hb
        have := hseen b hb
        simp at this
        exact fun h => this.1 h.symm
      · intro d hd
        simp only [dedupCitations, if_neg hmem] at hd
        rcases List.mem_cons.mp hd with rfl | hd2
        · exact hmem
        · exact fun h => (hseen d hd2) (List.mem_cons_of_mem _ h)

/-- First-seen-wins: every kept citation is the first input citation with
its key, relative to keys not already seen. -/
theorem dedupCitations_first (seen : List (String × Nat)) (l : List Citation) :
    ∀ c ∈ dedupCitations seen l, citeKey c ∉ seen ∧
      ∃ l1 l2, l = l1 ++ c :: l2 ∧ ∀ c1 ∈ l1, citeKey c1 ≠ citeKey c := by
  induction l generalizing seen with
  | nil => simp [dedupCitations]
  | cons hd rest ih =>
    intro c hc
    by_cases hmem : citeKey hd ∈ seen
    · rw [dedupCitations, if_pos hmem] at hc
      rcases ih seen c hc with ⟨hnot, l1, l2, rfl, hpre⟩
      refine ⟨hnot, hd :: l1, l2, rfl, ?_⟩
      intro c1 hc1
      rcases List.mem_cons.mp hc1 with rfl | h1
      · exact fun h => hnot (h ▸ hmem)
      · exact hpre c1 h1
    · rw [dedupCitations, if_neg hmem] at hc
      rcases List.mem_cons.mp hc with rfl | hc2
      · exact ⟨hmem, [], rest, rfl, by simp⟩
      · rcases ih (citeKey hd :: seen) c hc2 with ⟨hnot, l1, l2, rfl, hpre⟩
        have hne : citeKey c ≠ citeKey hd := by
          intro h; exact hnot (h ▸ List.mem_cons_self _ _)
        refine ⟨fun h => hnot (List.mem_cons_of_mem _ h), hd :: l1, l2, rfl, ?_⟩
        intro c1 hc1
        rcases List.mem_cons.mp hc1 with rfl | h1
        · exact fun h => hne h.symm
        · exact hpre c1 h1

theorem dedupCitations_subset (seen : List (String × Nat)) (l : List Citation) :
    ∀ c ∈ dedupCitations seen l, c ∈ l := by
  intro c hc
  rcases dedupCitations_first seen l c hc with ⟨-, l1, l2, rfl, -⟩
  exact List.mem_append.mpr (Or.inr (List.mem_cons_self c l2))

theorem ctxGet_ctxSet (d : CtxDict) (k k1 : String) (v : CtxVal) :
    ctxGet (ctxSet d k v) k1 = if k = k1 then some v else ctxGet d k1 := by
  induction d with
  | nil =>
    by_cases h : k = k1 <;> simp [ctxSet, ctxGet, h]
  | cons hd t ih =>
    obtain ⟨k2, v2⟩ := hd
    by_cases h2 : k2 = k
    · subst h2
      by_cases h : k2 = k1 <;> simp [ctxSet, ctxGet, h]
    · by_cases h : k = k1
      · subst h
        simp [ctxSet, ctxGet, h2, ih, Ne.symm h2]
      · by_cases h3 : k2 = k1 <;>
          simp [ctxSet, ctxGet, h2, h3, ih, h, Ne.symm h]

theorem execBody_caller (strategy query : String) (st : EngState)
    (tool : ETool) (confidence : ℚ) :
    (execBody strategy query st tool confidence).caller = st.caller := by
  cases h : tool.exec query st.cur with
  | ok result =>
    by_cases hs : result.success <;> simp [execBody, h, hs]
  | exn e => simp [execBody, h]

theorem condStep_caller (query : String) (conds : List (String × Cond))
    (st : EngState) (tc : ETool × ℚ) (st1 : EngState)
    (h : condStep query conds st tc = some st1) :
    st1.caller = st.caller := by
  unfold condStep at h
  cases hc : check_conditions conds tc.1.name st.results st.cur with
  | none => rw [hc] at h; exact absurd h (by simp)
  | some p =>
    obtain ⟨se, ctx1⟩ := p
    rw [hc] at h
    by_cases hse : se
    · subst hse
      simp at h
      rw [← h]
      exact execBody_caller _ _ _ _ _
    · simp [hse] at h
      rw [← h]

/-- C5: merge_results on the empty list returns a failed ToolResult with
error No results to merge, and on a non-empty all-failed list returns the
first input unchanged. -/
theorem claim_C5 :
    merge_results [] = some emptyMergeFailure ∧
    ∀ (r : ToolResult) (rs : List ToolResult),
      (∀ x ∈ r :: rs, x.success = false) →
      merge_results (r :: rs) = some r := by
  constructor
  · rfl
  · intro r rs h
    have hfilter : (r :: rs).filter (fun x => x.success) = [] := by
      rw [List.filter_eq_nil_iff]
      intro a ha
      simp [h a ha]
    simp [merge_results, hfilter]

theorem claim_C5_witness :
    merge_results [sampleFail1, sampleFail2] = some sampleFail1 :=
  claim_C5.2 sampleFail1 [sampleFail2] (by decide)

/-- C4: when no ToolResult succeeded, response synthesis returns an
AgenticResponse whose answer is the failure message followed by the
collected error messages, with empty sources and all_tools_failed true in
its metadata. -/
theorem claim_C4 (qaChain : Option QaChain) (query : String)
    (results : List ToolResult) (analysis : Analysis)
    (hfail : ∀ r ∈ results, r.success = false) :
    ∃ resp, synthesize_response qaChain query results analysis = some resp ∧
      (∃ rest, resp.answer =
        PyVal.str ("I couldn\x27t find an answer to your query." ++ rest)) ∧
      resp.answer = PyVal.str
        ("I couldn\x27t find an answer to your query. Errors: " ++
          String.intercalate "; " (results.filterMap (fun r =>
            match r.error with
            | some e => if e = "" then Option.none else some e
            | Option.none => Option.none))) ∧
      resp.sources = [] ∧
      dictGet resp.metadata "all_tools_failed" = some (PyVal.bool true) := by
  have hfilter : results.filter (fun r => r.success) = [] := by
    rw [List.filter_eq_nil_iff]
    intro a ha
    simp [hfail a ha]
  refine ⟨⟨PyVal.str ("I couldn\x27t find an answer to your query. Errors: " ++ String.intercalate "; " (results.filterMap (fun r => match r.error with | some e => if e = "" then Option.none else some e | Option.none => Option.none))), [], [], [("all_tools_failed", PyVal.bool true), ("attempted_tools", PyVal.list (results.map (fun r => (dictGet r.metadata "tool").getD (PyVal.str "unknown"))))], "agentic"⟩, ?_, ?_, rfl, rfl, rfl⟩
  · simp [synthesize_response, hfilter]
  · refine ⟨" Errors: " ++ String.intercalate "; " (results.filterMap (fun r =>
      match r.error with
      | some e => if e = "" then Option.none else some e
      | Option.none => Option.none)), ?_⟩
    have hlit : "I couldn\x27t find an answer to your query." ++ " Errors: " =
        "I couldn\x27t find an answer to your query. Errors: " := by decide
    rw [← String.append_assoc, hlit]

theorem claim_C4_witness :
    ∃ resp, synthesize_response Option.none "q" [sampleFail1, sampleFail2]
        { complexity := "simple", intent := "factual" } = some resp ∧
      resp.answer = PyVal.str
        "I couldn\x27t find an answer to your query. Errors: boom; e2" ∧
      resp.sources = [] ∧
      dictGet resp.metadata "all_tools_failed" = some (PyVal.bool true) := by
  obtain ⟨resp, h1, -, h3, h4, h5⟩ :=
    claim_C4 Option.none "q" [sampleFail1, sampleFail2]
      { complexity := "simple", intent := "factual" } (by decide)
  exact ⟨resp, h1, by rw [h3]; exact congrArg PyVal.str (by decide), h4, h5⟩

theorem dedupCitations_covers (seen : List (String × Nat)) (l : List Citation) :
    ∀ c ∈ l, citeKey c ∉ seen →
      ∃ c2 ∈ dedupCitations seen l, citeKey c2 = citeKey c := by
  induction l generalizing seen with
  | nil => simp
  | cons hd rest ih =>
    intro c hc hnot
    by_cases hmem : citeKey hd ∈ seen
    · rw [dedupCitations, if_pos hmem]
      rcases List.mem_cons.mp hc with rfl | hc2
      · exact absurd hmem hnot
      · exact ih seen c hc2 hnot
    · rw [dedupCitations, if_neg hmem]
      rcases List.mem_cons.mp hc with rfl | hc2
      · exact ⟨_, List.mem_cons_self _ _, rfl⟩
      · by_cases hkey : citeKey c = citeKey hd
        · exact ⟨hd, List.mem_cons_self _ _, hkey.symm⟩
        · rcases ih (citeKey hd :: seen) c hc2
            (by simp [hkey, hnot]) with ⟨c2, hc2m, hc2k⟩
          exact ⟨c2, List.mem_cons_of_mem hd hc2m, hc2k⟩

/-- C2 counterexample input: a successful result mapping answers to a
string followed by a successful result whose data has an answer key makes
merge_results raise AttributeError (string has no append), modelled as
Option.none, instead of returning a successful merged result. -/
theorem counterexample_C2 :
    merge_results [sampleAnswersStr, sampleOkA] = Option.none ∧
    sampleAnswersStr.success = true := by
  exact ⟨rfl, rfl⟩

/-- C2 (amended with the proviso that no successful input maps answers to
a non-list value): merge_results returns a successful result whose
citations have pairwise distinct (document, page_number) keys, keep the
first input occurrence of each key, and are sorted descending by
confidence_score, and whose metadata carries tools_used in merge order
and merge_count, the number of successful inputs. -/
theorem claim_C2 (results : List ToolResult)
    (hex : ∃ r ∈ results, r.success = true)
    (hprov : ∀ r ∈ results, r.success = true → AnswersListy r) :
    ∃ m, merge_results results = some m ∧
      m.success = true ∧
      m.citations.Pairwise (fun a b => citeKey a ≠ citeKey b) ∧
      m.citations.Pairwise (fun a b => b.confidence_score ≤ a.confidence_score) ∧
      (∀ c ∈ m.citations, ∃ l1 l2,
        ((results.filter (fun r => r.success)).map (fun r => r.citations)).flatten
          = l1 ++ c :: l2 ∧
        ∀ c1 ∈ l1, citeKey c1 ≠ citeKey c) ∧
      (∀ c ∈ ((results.filter (fun r => r.success)).map
          (fun r => r.citations)).flatten,
        ∃ c2 ∈ m.citations, citeKey c2 = citeKey c) ∧
      dictGet m.metadata "tools_used" = some
        (PyVal.list ((results.filter (fun r => r.success)).map mergeToolName)) ∧
      dictGet m.metadata "merge_count" = some
        (PyVal.num ((results.filter (fun r => r.success)).length)) := by
  obtain ⟨r0, hr0, hr0s⟩ := hex
  have hmemf : r0 ∈ results.filter (fun r => r.success) :=
    List.mem_filter.mpr ⟨hr0, by simp [hr0s]⟩
  obtain ⟨s, ss, hfilter⟩ : ∃ s ss, results.filter (fun r => r.success) = s :: ss := by
    cases hf : results.filter (fun r => r.success) with
    | nil => rw [hf] at hmemf; cases hmemf
    | cons s ss => exact ⟨s, ss, rfl⟩
  have hprovf : ∀ r ∈ results.filter (fun r => r.success), AnswersListy r := by
    intro r hrf
    rcases List.mem_filter.mp hrf with ⟨hrm, hrs⟩
    exact hprov r hrm (by simpa using hrs)
  obtain ⟨accF, hloop⟩ := mergeLoop_some (results.filter (fun r => r.success))
    [] [] [] (fun v hv => by cases hv) hprovf
  obtain ⟨rr0, rest, hres⟩ : ∃ rr0 rest, results = rr0 :: rest := by
    cases results with
    | nil => cases hr0
    | cons a b => exact ⟨a, b, rfl⟩
  -- evaluate merge_results
  have hmr : merge_results results = some
      { success := true
        data := PyVal.dict accF
        metadata := [("tools_used", PyVal.list
            ((results.filter (fun r => r.success)).map mergeToolName)),
          ("merge_count", PyVal.num ((results.filter (fun r => r.success)).length))]
        citations := sortDesc (fun c => c.confidence_score)
          (dedupCitations []
            (((results.filter (fun r => r.success)).map
              (fun r => r.citations)).flatten)) } := by
    have hloop2 := hloop
    rw [hfilter] at hloop2
    simp only [List.nil_append] at hloop2
    rw [hres]
    rw [hres] at hfilter
    simp only [merge_results]
    rw [hfilter, hloop2]
  refine ⟨_, hmr, rfl, ?_, ?_, ?_, ?_, by simp [dictGet], by simp [dictGet]⟩
  · have hpw := (dedupCitations_pairwise []
      (((results.filter (fun r => r.success)).map (fun r => r.citations)).flatten)).1
    have hperm := sortDesc_perm (fun c => c.confidence_score)
      (dedupCitations []
        (((results.filter (fun r => r.success)).map (fun r => r.citations)).flatten))
    exact (List.Perm.pairwise_iff (by intro a b h; exact Ne.symm h) hperm).mpr hpw
  · exact sortDesc_sorted _ _
  · intro c hc
    have hcm : c ∈ dedupCitations []
        (((results.filter (fun r => r.success)).map (fun r => r.citations)).flatten) :=
      (sortDesc_perm _ _).mem_iff.mp hc
    rcases dedupCitations_first [] _ c hcm with ⟨-, l1, l2, heq, hpre⟩
    exact ⟨l1, l2, heq, hpre⟩
  · intro c hc
    rcases dedupCitations_covers [] _ c hc (by simp) with ⟨c2, hc2m, hc2k⟩
    exact ⟨c2, (sortDesc_perm _ _).mem_iff.mpr hc2m, hc2k⟩

theorem claim_C2_witness :
    ∃ m, merge_results [sampleOkA, sampleFail1, sampleOkB] = some m ∧
      m.success = true ∧
      m.citations.Pairwise (fun a b => citeKey a ≠ citeKey b) ∧
      m.citations.Pairwise (fun a b => b.confidence_score ≤ a.confidence_score) ∧
      (∀ c ∈ m.citations, ∃ l1 l2,
        (([sampleOkA, sampleFail1, sampleOkB].filter
          (fun r => r.success)).map (fun r => r.citations)).flatten
          = l1 ++ c :: l2 ∧
        ∀ c1 ∈ l1, citeKey c1 ≠ citeKey c) ∧
      (∀ c ∈ (([sampleOkA, sampleFail1, sampleOkB].filter (fun r => r.success)).map
          (fun r => r.citations)).flatten,
        ∃ c2 ∈ m.citations, citeKey c2 = citeKey c) ∧
      dictGet m.metadata "tools_used" = some
        (PyVal.list (([sampleOkA, sampleFail1, sampleOkB].filter
          (fun r => r.success)).map mergeToolName)) ∧
      dictGet m.metadata "merge_count" = some
        (PyVal.num (([sampleOkA, sampleFail1, sampleOkB].filter
          (fun r => r.success)).length)) :=
  claim_C2 [sampleOkA, sampleFail1, sampleOkB]
    ⟨sampleOkA, by simp, rfl⟩
    (by
      intro r hr hrs entries hent kv hkv hk
      simp only [List.mem_cons, List.not_mem_nil, or_false] at hr
      rcases hr with rfl | rfl | rfl
      · simp only [sampleOkA] at hent
        injection hent with he
        subst he
        simp at hkv
        subst hkv
        simp at hk
      · simp [sampleFail1] at hent
      · simp only [sampleOkB] at hent
        injection hent with he
        subst he
        simp at hkv
        subst hkv
        simp at hk)

/-! Evaluation lemmas for the formatting functions: rational arithmetic
does not reduce in the kernel, so the multiplications are discharged by
norm_num and the remaining integer and string computation by decide. -/
theorem rhe_intCast (n : ℤ) : rhe ((n : ℤ) : ℚ) = n := by
  unfold rhe
  rw [Int.floor_intCast]
  norm_num

theorem fmtFixed3_eval (q : ℚ) (n : ℤ) (h : q * 1000 = (n : ℚ)) :
    fmtFixed3 q = (if n < 0 then "-" else "") ++ toString (n.natAbs / 1000) ++
      "." ++ padZeros 3 (n.natAbs % 1000) := by
  unfold fmtFixed3
  rw [h, rhe_intCast]

theorem decDigits_eval_one (q : ℚ) (hq : (q * 10 ^ (1 : ℕ)).den = 1) :
    decDigits q = 1 := by
  unfold decDigits
  rw [show (List.range 17).map (fun i => i + 1) =
    1 :: [2, 3, 4, 5, 6, 7, 8, 9, 10, 11, 12, 13, 14, 15, 16, 17] from by decide]
  rw [List.find?_cons_of_pos _ (by exact decide_eq_true hq)]
  rfl

theorem fmtPyFloat_eval (q : ℚ) (d : ℕ) (n : ℤ) (hd : decDigits q = d)
    (h : q * 10 ^ d = (n : ℚ)) (hq : ¬ q < 0) :
    fmtPyFloat q = toString (n.natAbs / 10 ^ d) ++ "." ++
      padZeros d (n.natAbs % 10 ^ d) := by
  unfold fmtPyFloat
  rw [hd, h, rhe_intCast, if_neg hq]
  simp

theorem fmtPyFloat_half : fmtPyFloat (0.5 : ℚ) = "0.5" := by
  have hden : ((0.5 : ℚ) * 10 ^ (1 : ℕ)).den = 1 := by
    have h5 : ((0.5 : ℚ) * 10 ^ (1 : ℕ)) = ((5 : ℤ) : ℚ) := by norm_num
    rw [h5]
    exact Rat.den_intCast 5
  rw [fmtPyFloat_eval (0.5 : ℚ) 1 5 (decDigits_eval_one _ hden) (by norm_num)
    (by norm_num)]
  decide

theorem skipReasonConfidence_eval_09 :
    skipReasonConfidence 0.9 0.5 = "confidence 0.900 >= 0.5" := by
  unfold skipReasonConfidence
  rw [fmtFixed3_eval (0.9 : ℚ) 900 (by norm_num), fmtPyFloat_half]
  decide

theorem skipReasonConfidence_eval_08 :
    skipReasonConfidence 0.8 0.5 = "confidence 0.800 >= 0.5" := by
  unfold skipReasonConfidence
  rw [fmtFixed3_eval (0.8 : ℚ) 800 (by norm_num), fmtPyFloat_half]
  decide

/-- C1 counterexample input: the condition map entry for web_search
contains max_confidence 0.5 together with a requires entry naming a tool
with no prior result.  The last prior result has confidence 0.9 at or
above the threshold, yet the recorded skip reason is condition_not_met,
not the confidence string the claim specifies: the requires check returns
False before the max_confidence check can record its reason. -/
theorem counterexample_C1 :
    condStep "q" sampleCondsWithReq sampleStHigher
        (⟨"web_search", sampleExnExec⟩, (0.8 : ℚ)) =
      some { caller := []
             cur := []
             results := [samplePrevHigher]
             trace := [[("step", CtxVal.py (PyVal.str "skip_tool")),
                        ("tool", CtxVal.py (PyVal.str "web_search")),
                        ("reason", CtxVal.py (PyVal.str "condition_not_met"))]] } ∧
    (condsGet sampleCondsWithReq "web_search").map Cond.max_confidence =
      some (some 0.5) ∧
    sampleStHigher.results.getLast? = some samplePrevHigher ∧
    resultConfidence samplePrevHigher = some 0.9 ∧
    ((0.5 : ℚ) ≤ 0.9) ∧
    "condition_not_met" ≠ skipReasonConfidence 0.9 0.5 ∧
    skipReasonConfidence 0.9 0.5 = "confidence 0.900 >= 0.5" := by
  refine ⟨rfl, rfl, rfl, rfl, by norm_num, ?_, skipReasonConfidence_eval_09⟩
  rw [skipReasonConfidence_eval_09]
  decide

/-- C1 (amended so that the condition map for T is exactly
max_confidence = θ): with at least one prior result whose confidence c
(default 1.0) satisfies c ≥ θ, the step skips T: no ToolResult is
contributed, the working context records the skip reason, and a skip_tool
trace entry carries reason confidence c formatted to three decimals
followed by the threshold; the outcome does not depend on the execute
function ex, which is therefore never called.  When c < θ the step runs
the shared execution body on T. -/
theorem claim_C1 (query : String) (conds : List (String × Cond))
    (name : String) (ex : String → CtxDict → ExecOutcome) (conf : ℚ)
    (st : EngState) (θ c : ℚ) (last : ToolResult)
    (hcond : condsGet conds name = some { max_confidence := some θ })
    (hlast : st.results.getLast? = some last)
    (hc : resultConfidence last = some c) :
    (θ ≤ c →
      condStep query conds st (⟨name, ex⟩, conf) = some
        { st with
          cur := ctxSet st.cur "skip_reason"
            (CtxVal.py (PyVal.str (skipReasonConfidence c θ)))
          trace := st.trace ++
            [[("step", CtxVal.py (PyVal.str "skip_tool")),
              ("tool", CtxVal.py (PyVal.str name)),
              ("reason", CtxVal.py (PyVal.str (skipReasonConfidence c θ)))]] }) ∧
    (c < θ →
      condStep query conds st (⟨name, ex⟩, conf) =
        some (execBody "conditional" query st ⟨name, ex⟩ conf)) := by
  constructor
  · intro hge
    simp only [condStep, check_conditions, hcond, hlast, hc]
    simp [hge, ctxGet_ctxSet]
  · intro hlt
    simp only [condStep, check_conditions, hcond, hlast, hc]
    simp [not_le.mpr hlt, checkTail]

theorem claim_C1_witness :
    ((0.5 : ℚ) ≤ 0.8) ∧
    condStep "q" sampleCondsMaxOnly sampleStHigh
        (⟨"web_search", sampleExnExec⟩, (0.7 : ℚ)) =
      some { sampleStHigh with
             cur := ctxSet sampleStHigh.cur "skip_reason"
               (CtxVal.py (PyVal.str (skipReasonConfidence 0.8 0.5)))
             trace := sampleStHigh.trace ++
               [[("step", CtxVal.py (PyVal.str "skip_tool")),
                 ("tool", CtxVal.py (PyVal.str "web_search")),
                 ("reason", CtxVal.py (PyVal.str (skipReasonConfidence 0.8 0.5)))]] } ∧
    skipReasonConfidence 0.8 0.5 = "confidence 0.800 >= 0.5" :=
  ⟨by norm_num,
   (claim_C1 "q" sampleCondsMaxOnly "web_search" sampleExnExec 0.7 sampleStHigh
     0.5 0.8 samplePrevHigh rfl rfl rfl).1 (by norm_num),
   skipReasonConfidence_eval_08⟩

/-- C3 counterexample input: a citation whose rank_position is 0 (the
dataclass default).  The code maps the falsy rank to 10, giving
confidence 0.23, while the formula of the claim uses rank_position
directly and gives 0.53. -/
theorem counterexample_C3 :
    calculate_confidence sampleRankZeroCit sampleEmptyMeta = some 0.23 ∧
    specClaimConfidence sampleRankZeroCit sampleEmptyMeta = 0.53 ∧
    calculate_confidence sampleRankZeroCit sampleEmptyMeta ≠
      some (specClaimConfidence sampleRankZeroCit sampleEmptyMeta) := by
  have hrc : rankConfidence 0 = 0.1 := by
    unfold rankConfidence
    rw [if_pos rfl]
    rw [max_eq_left (by norm_num)]
  have h1 : calculate_confidence sampleRankZeroCit sampleEmptyMeta = some 0.23 := by
    unfold calculate_confidence toolConfidence sampleRankZeroCit sampleEmptyMeta
    simp only [dictGet]
    rw [if_neg (by norm_num : ¬ ((0 : ℚ) > 0))]
    rw [hrc]
    rw [min_eq_right (by norm_num : (0 : ℚ) * 0.5 + 0.1 * 0.3 + 1 * 0.2 ≤ 1)]
    rw [max_eq_right (by norm_num : (0 : ℚ) ≤ 0 * 0.5 + 0.1 * 0.3 + 1 * 0.2)]
    norm_num
  have h2 : specClaimConfidence sampleRankZeroCit sampleEmptyMeta = 0.53 := by
    unfold specClaimConfidence sampleRankZeroCit sampleEmptyMeta
    simp only [dictGet]
    rw [if_neg (by norm_num : ¬ ((0 : ℚ) > 0))]
    rw [max_eq_right (by norm_num : (0.1 : ℚ) ≤ 1 - 0.1 * (((0 : ℕ) : ℚ) - 1))]
    rw [min_eq_right (by push_cast; norm_num)]
    rw [max_eq_right (by push_cast; norm_num)]
    push_cast
    norm_num
  refine ⟨h1, h2, ?_⟩
  rw [h1, h2]
  intro h
  rw [Option.some_inj] at h
  norm_num at h

/-- C3 (amended to citations whose rank_position is at least 1, which is
what every tool in the repository emits; a rank of 0 is mapped to 10 by
the code) with numeric tool confidence: the composite confidence equals
the clamp to the unit interval of the specified weighted sum, and in
particular lies in that interval. -/
theorem claim_C3 (c : Citation) (r : ToolResult)
    (hrank : 1 ≤ c.rank_position)
    (hnum : ∀ v, dictGet r.metadata "confidence" = some v →
      ∃ t, pyNum v = some t) :
    ∃ q, calculate_confidence c r = some q ∧ q = specClaimConfidence c r ∧
      0 ≤ q ∧ q ≤ 1 := by
  have hrank0 : ¬ (c.rank_position = 0) := by omega
  obtain ⟨t, ht⟩ : ∃ t, toolConfidence r.metadata = some t := by
    unfold toolConfidence
    cases hconf : dictGet r.metadata "confidence" with
    | none => exact ⟨1, rfl⟩
    | some v =>
      obtain ⟨t, hpv⟩ := hnum v hconf
      exact ⟨t, hpv⟩
  have hspec_t : ((dictGet r.metadata "confidence").bind pyNum).getD 1 = t := by
    unfold toolConfidence at ht
    cases hconf : dictGet r.metadata "confidence" with
    | none =>
      rw [hconf] at ht
      have ht2 : some (1 : ℚ) = some t := ht
      rw [Option.some_inj] at ht2
      simp [hconf, ht2]
    | some v =>
      rw [hconf] at ht
      have ht2 : pyNum v = some t := ht
      simp [hconf, ht2]
  have hrc : rankConfidence c.rank_position =
      max 0.1 (1 - 0.1 * ((c.rank_position : ℚ) - 1)) := by
    unfold rankConfidence
    rw [if_neg hrank0]
    ring_nf
  refine ⟨max 0 (min 1 (if c.cross_encoder_score > 0 then
      c.similarity_score * 0.3 + c.cross_encoder_score * 0.4 +
        rankConfidence c.rank_position * 0.2 + t * 0.1
    else
      c.similarity_score * 0.5 + rankConfidence c.rank_position * 0.3 + t * 0.2)),
    ?_, ?_, le_max_left _ _, max_le (by norm_num) (min_le_left _ _)⟩
  · unfold calculate_confidence
    rw [ht]
  · unfold specClaimConfidence
    rw [hspec_t]
    by_cases hcr : c.cross_encoder_score > 0
    · rw [if_pos hcr, if_pos hcr]
      congr 1
      congr 1
      rw [hrc]
      ring
    · rw [if_neg hcr, if_neg hcr]
      congr 1
      congr 1
      rw [hrc]
      ring

theorem claim_C3_witness :
    ∃ q, calculate_confidence
        { document := "d", rank_position := 1, similarity_score := 0.5 }
        sampleEmptyMeta = some q ∧
      q = specClaimConfidence
        { document := "d", rank_position := 1, similarity_score := 0.5 }
        sampleEmptyMeta ∧
      0 ≤ q ∧ q ≤ 1 :=
  claim_C3 { document := "d", rank_position := 1, similarity_score := 0.5 }
    sampleEmptyMeta (by norm_num)
    (by intro v hv; simp [sampleEmptyMeta, dictGet] at hv)

/-- C6: the rule-based intent classifier checks conversational, then
comparison, then summarization, then calculation, then external, with
default factual; consequently any query not classified conversational or
comparison that contains a summarization keyword is classified
summarization, even when it also contains calculation keywords such as
sum. -/
theorem claim_C6 (query : String)
    (h1 : rule_based_classify_intent query ≠ "conversational")
    (h2 : rule_based_classify_intent query ≠ "comparison")
    (h3 : summarizationKeywords.any
      (fun kw => strIn kw (pyStrip (pyLower query))) = true) :
    rule_based_classify_intent query = "summarization" := by
  unfold rule_based_classify_intent at h1 h2 ⊢
  by_cases hA : ((pySplitWs (pyStrip (pyLower query))).length = 1 &&
      conversationalPatterns.contains
        ((pySplitWs (pyStrip (pyLower query))).headD "")) = true
  · rw [if_pos hA] at h1
    exact absurd rfl h1
  · rw [if_neg hA] at h1 h2 ⊢
    by_cases hB : ((pySplitWs (pyStrip (pyLower query))).length ≤ 3 &&
        !(strIn "?" query) &&
        (pySplitWs (pyStrip (pyLower query))).any
          (fun w => conversationalPatterns.contains w)) = true
    · rw [if_pos hB] at h1
      exact absurd rfl h1
    · rw [if_neg hB] at h1 h2 ⊢
      by_cases hC : (comparisonKeywords.any
          (fun kw => strIn kw (pyStrip (pyLower query)))) = true
      · rw [if_pos hC] at h2
        exact absurd rfl h2
      · rw [if_neg hC]
        rw [if_pos h3]

theorem claim_C6_witness :
    rule_based_classify_intent "Summarize the sum of the costs" =
      "summarization" :=
  claim_C6 "Summarize the sum of the costs" (by decide) (by decide) (by decide)

/-- C7: query complexity equals the classification of the integer
complexity score, complex at 5 or more, moderate at 2 or more, else
simple; in particular it always is one of the three labels. -/
theorem claim_C7 (query : String) :
    assess_complexity query =
      (if ((if (pySplitWs query).length > 20 then 2
            else if (pySplitWs query).length > 10 then 1 else 0)
          + (if sentenceCount query > 2 then 2
             else if sentenceCount query > 1 then 1 else 0)
          + (if query.data.count (Char.ofNat 63) > 1 then 2 else 0)
          + (if andOrCount query > 2 then 2
             else if andOrCount query > 0 then 1 else 0)
          + (if query.data.count (Char.ofNat 44) > 2 then 1 else 0)
          + (if multiStepKeywords.any (fun kw => strIn kw (pyLower query))
             then 3 else 0) : ℕ) ≥ 5 then "complex"
       else if ((if (pySplitWs query).length > 20 then 2
            else if (pySplitWs query).length > 10 then 1 else 0)
          + (if sentenceCount query > 2 then 2
             else if sentenceCount query > 1 then 1 else 0)
          + (if query.data.count (Char.ofNat 63) > 1 then 2 else 0)
          + (if andOrCount query > 2 then 2
             else if andOrCount query > 0 then 1 else 0)
          + (if query.data.count (Char.ofNat 44) > 2 then 1 else 0)
          + (if multiStepKeywords.any (fun kw => strIn kw (pyLower query))
             then 3 else 0) : ℕ) ≥ 2 then "moderate" else "simple") ∧
    (assess_complexity query = "simple" ∨ assess_complexity query = "moderate" ∨
      assess_complexity query = "complex") := by
  constructor
  · rfl
  · unfold assess_complexity
    by_cases h5 : complexityScore query ≥ 5
    · rw [if_pos h5]
      right; right; rfl
    · rw [if_neg h5]
      by_cases h2 : complexityScore query ≥ 2
      · rw [if_pos h2]
        right; left; rfl
      · rw [if_neg h2]
        left; rfl

theorem strsOf_map (ss : List String) : strsOf (ss.map PyVal.str) = some ss := by
  induction ss with
  | nil => rfl
  | cons s rest ih => simp [strsOf, ih]

/-- C8 counterexample input: merged data with two answers, tools_used
holding semantic_search and web_search, and kb_confidence 0.2.  The
produced answer starts with the markdown header of the source, and the
header string quoted by the claim is not a prefix of it, so the answer
does not consist of that header followed by the joined answers. -/
theorem counterexample_C8 :
    extract_answer Option.none sampleMergedLowKb "q" [] =
      some (PyVal.str (headerExternalLowKb ++ "foo\n\nbar")) ∧
    headerExternalLowKb ++ "foo\n\nbar" =
      "**Answer from external sources** (internal documents had low relevance):\n\nfoo\n\nbar" ∧
    strStartsWith (headerExternalLowKb ++ "foo\n\nbar")
      "Answer from external sources (internal documents had low relevance):" = false := by
  refine ⟨?_, by decide, by decide⟩
  unfold extract_answer sampleMergedLowKb
  simp [dictGet, pyInStr, elemEqStr, pyNum, pyJoin, strsOf]
  norm_num
  decide

/-- C8 (amended to the exact header strings of the code, which carry
markdown bold markers): with answers collected, both an internal search
tool and web_search in tools_used, and numeric kb_confidence kb, the
answer is the synthesized-header string when kb is above 0.3 and the
external-sources header string otherwise, followed by the answers joined
by a blank line. -/
theorem claim_C8 (qaChain : Option QaChain) (result : ToolResult)
    (query : String) (failed_tools : List ToolResult)
    (d : Dict) (ss : List String) (tus : List PyVal) (kb : ℚ)
    (hd : result.data = PyVal.dict d)
    (hna : dictGet d "answer" = Option.none)
    (hans : dictGet d "answers" = some (PyVal.list (ss.map PyVal.str)))
    (htu : dictGet result.metadata "tools_used" = some (PyVal.list tus))
    (hkb : tus.any (fun x => elemEqStr x "semantic_search") = true ∨
      tus.any (fun x => elemEqStr x "keyword_search") = true)
    (hweb : tus.any (fun x => elemEqStr x "web_search") = true)
    (hkbc : pyNum ((dictGet result.metadata "kb_confidence").getD
      (PyVal.num 0)) = some kb) :
    extract_answer qaChain result query failed_tools =
      some (PyVal.str ((if kb > 0.3 then headerSynthesized
        else headerExternalLowKb) ++ String.intercalate "\n\n" ss)) := by
  unfold extract_answer
  rw [hd]
  simp only [hna, hans, htu, Option.getD_some, pyInStr]
  have hhaskb : (if tus.any (fun x => elemEqStr x "semantic_search") then
      some true else some (tus.any (fun x => elemEqStr x "keyword_search"))) =
      some true := by
    rcases hkb with h | h
    · rw [if_pos h]
    · by_cases h1 : tus.any (fun x => elemEqStr x "semantic_search") = true
      · rw [if_pos h1]
      · rw [if_neg h1, h]
  rw [hhaskb, hweb]
  simp only [Bool.and_self, if_pos]
  rw [hkbc]
  rw [show pyJoin "\n\n" (PyVal.list (ss.map PyVal.str)) =
    some (String.intercalate "\n\n" ss) from by simp [pyJoin, strsOf_map]]

theorem claim_C8_witness :
    extract_answer Option.none sampleMergedLowKb "q" [] =
      some (PyVal.str ((if (0.2 : ℚ) > 0.3 then headerSynthesized
        else headerExternalLowKb) ++ String.intercalate "\n\n" ["foo", "bar"])) ∧
    ((if (0.2 : ℚ) > 0.3 then headerSynthesized else headerExternalLowKb) =
      headerExternalLowKb) :=
  ⟨claim_C8 Option.none sampleMergedLowKb "q" []
      [("answers", PyVal.list [PyVal.str "foo", PyVal.str "bar"])]
      ["foo", "bar"] [PyVal.str "semantic_search", PyVal.str "web_search"] 0.2
      rfl rfl rfl rfl (Or.inl rfl) rfl rfl,
    by norm_num⟩

/-- C9 counterexample input: a registry holding one tool whose can_handle
raises.  With min_confidence 0, a tool of score 0 would have to be
returned (0 is at least 0), but the exception handler skips the tool
entirely, so the output is empty. -/
theorem counterexample_C9 :
    get_suitable_tools [sampleBadRTool] "q" [] 0 = [] ∧
    sampleBadRTool.can_handle "q" [] = Option.none ∧
    ((0 : ℚ) ≤ 0) :=
  ⟨rfl, rfl, le_refl 0⟩

/-- C9 (amended: a registered tool whose can_handle raises never appears
in the output, regardless of min_confidence): get_suitable_tools returns
exactly the pairs of tools whose score is at least min_confidence, as a
stable descending sort of the candidate pairs in registry order. -/
theorem claim_C9 (tools : List RTool) (query : String) (ctx : CtxDict)
    (m : ℚ) :
    List.Perm (get_suitable_tools tools query ctx m)
      (suitableCandidates tools query ctx m) ∧
    (get_suitable_tools tools query ctx m).Pairwise (fun a b => b.2 ≤ a.2) ∧
    (∀ q0 : ℚ, (get_suitable_tools tools query ctx m).filter
        (fun p => decide (p.2 = q0)) =
      (suitableCandidates tools query ctx m).filter
        (fun p => decide (p.2 = q0))) ∧
    (∀ (t : RTool) (conf : ℚ),
      (t, conf) ∈ get_suitable_tools tools query ctx m ↔
        (t ∈ tools ∧ t.can_handle query ctx = some conf ∧ m ≤ conf)) ∧
    (∀ t : RTool, t.can_handle query ctx = Option.none →
      ∀ conf, (t, conf) ∉ get_suitable_tools tools query ctx m) := by
  have hmem : ∀ (t : RTool) (conf : ℚ),
      (t, conf) ∈ suitableCandidates tools query ctx m ↔
        (t ∈ tools ∧ t.can_handle query ctx = some conf ∧ m ≤ conf) := by
    intro t conf
    unfold suitableCandidates
    rw [List.mem_filterMap]
    constructor
    · rintro ⟨a, ha, hfa⟩
      cases hch : a.can_handle query ctx with
      | none => rw [hch] at hfa; cases hfa
      | some c =>
        rw [hch] at hfa
        have hfa2 : (if m ≤ c then some (a, c) else Option.none) =
            some (t, conf) := hfa
        by_cases hm : m ≤ c
        · rw [if_pos hm] at hfa2
          rw [Option.some_inj] at hfa2
          obtain ⟨rfl, rfl⟩ : a = t ∧ c = conf :=
            ⟨congrArg Prod.fst hfa2, congrArg Prod.snd hfa2⟩
          exact ⟨ha, hch, hm⟩
        · rw [if_neg hm] at hfa2
          cases hfa2
    · rintro ⟨ht, hch, hm⟩
      refine ⟨t, ht, ?_⟩
      rw [hch]
      show (if m ≤ conf then some (t, conf) else Option.none) = some (t, conf)
      rw [if_pos hm]
  refine ⟨sortDesc_perm _ _, sortDesc_sorted _ _, fun q0 => sortDesc_filter_eq _ _ q0,
    ?_, ?_⟩
  · intro t conf
    unfold get_suitable_tools
    rw [(sortDesc_perm (fun p => p.2) (suitableCandidates tools query ctx m)).mem_iff]
    exact hmem t conf
  · intro t hnone conf hmemo
    unfold get_suitable_tools at hmemo
    rw [(sortDesc_perm (fun p => p.2)
      (suitableCandidates tools query ctx m)).mem_iff] at hmemo
    rcases (hmem t conf).mp hmemo with ⟨-, hch, -⟩
    rw [hnone] at hch
    cases hch

theorem claim_C9_witness :
    (sampleRTool2, (0.9 : ℚ)) ∈
      get_suitable_tools [sampleRTool1, sampleRTool2] "q" [] 0.3 :=
  ((claim_C9 [sampleRTool1, sampleRTool2] "q" [] 0.3).2.2.2.1
    sampleRTool2 0.9).mpr ⟨by simp, rfl, by norm_num⟩

/-- C10: neither the sequential nor the conditional strategy mutates the
caller-supplied context map: the working copy receives every write
(previous_result, previous_citations, skip_reason), and the state
component holding the caller's map is returned unchanged. -/
theorem claim_C10 (query : String) (ctx : CtxDict)
    (conds : List (String × Cond)) (tools : List (ETool × ℚ)) :
    (execute_sequential query ctx tools).caller = ctx ∧
    (∀ st1, execute_conditional query ctx conds tools = some st1 →
      st1.caller = ctx) := by
  have hseq : ∀ (ts : List (ETool × ℚ)) (st : EngState),
      (ts.foldl (fun s tc => execBody "sequential" query s tc.1 tc.2) st).caller
        = st.caller := by
    intro ts
    induction ts with
    | nil => intro st; rfl
    | cons t ts ih =>
      intro st
      rw [List.foldl_cons, ih, execBody_caller]
  have hcond : ∀ (ts : List (ETool × ℚ)) (st st1 : EngState),
      ts.foldlM (condStep query conds) st = some st1 → st1.caller = st.caller := by
    intro ts
    induction ts with
    | nil =>
      intro st st1 h
      rw [List.foldlM_nil] at h
      have h2 : some st = some st1 := h
      rw [Option.some_inj] at h2
      rw [h2]
    | cons t ts ih =>
      intro st st1 h
      rw [List.foldlM_cons] at h
      cases hc : condStep query conds st t with
      | none => rw [hc] at h; cases h
      | some s =>
        rw [hc] at h
        rw [ih s st1 h, condStep_caller query conds st t s hc]
  exact ⟨hseq tools _, fun st1 h => hcond tools _ st1 h⟩

theorem claim_C10_witness :
    (execute_sequential "q" sampleCtx0 [(sampleETool0, 1)]).caller = sampleCtx0 ∧
    execute_conditional "q" sampleCtx0 [] [(sampleETool0, 1)] =
      some sampleCondRunState ∧
    sampleCondRunState.caller = sampleCtx0 :=
  ⟨(claim_C10 "q" sampleCtx0 [] [(sampleETool0, 1)]).1, rfl,
   (claim_C10 "q" sampleCtx0 [] [(sampleETool0, 1)]).2 sampleCondRunState rfl⟩

end Cortex
